import Mathlib

/-!
# The sharelo-media transcoding worker (`main/main.go`)

A shallow embedding of the worker: the data model (`FileInfo`, `FileMeta`,
`TranscodeInfo`), the helpers `FailOnError`, `GetFileSize`, `getFileMeta`,
`prepareFiles`, `sendFileInfoToQueue`, and the body of the consumer loop of
`main`.

The packages `services/transcode`, `services/uploader`, `services/pipeline`
and the standard library calls `os.Stat`, `json.Unmarshal`, `json.Marshal`
are collaborators of the worker. They are fields of an environment `Env σ`,
where `σ` is the state of the outside world (file system, broker, storage):
every effectful collaborator reads and updates the world, so that two calls
with the same arguments may behave differently. Every effectful call is
appended to a trace. `log.Fatalf` ends the process; it is the `exit`
constructor of `Outcome`. Console output (`fmt.Printf`, `fmt.Println`) and
the broker set-up at the top of `main` are left out.
-/

namespace Sharelo

/-! ## Data model -/

/-- The inbound job, `type FileInfo struct`. -/
structure FileInfo where
  UserId : String
  VideoUploadId : String
  Url : String
  FileName : String
deriving DecidableEq, Repr

/-- Size and duration of the converted file, `type FileMeta struct`. -/
structure FileMeta where
  size : String
  duration : String
deriving DecidableEq, Repr

/-- The outbound record, `type TranscodeInfo struct`. -/
structure TranscodeInfo where
  UserId : String
  VideoUploadId : String
  TranscodedUrl : String
  DownloadSize : String
  StreamUrl : String
  PreviewUrl : String
  Duration : String
deriving DecidableEq, Repr

/-- One effectful collaborator call, with the arguments it received. -/
inductive Call where
  | ConvertToMp4 (url fileName : String)
  | GenShortClip (savedFileUrl fileName : String)
  | VideoToMultiBitrates (savedFileUrl fileName : String)
  | GenMasterPlaylist (fileName : String)
  | GetVideoDuration (savedFileUrl : String)
  | Stat (fileUrl : String)
  | UploadDirAndRemove (userId fileName : String)
  | PublishAfterTranscoded (body : String)
deriving DecidableEq, Repr

/-- The name of the collaborator a call went to. -/
inductive Stage where
  | ConvertToMp4
  | GenShortClip
  | VideoToMultiBitrates
  | GenMasterPlaylist
  | GetVideoDuration
  | GetFileSize
  | UploadDirAndRemove
  | PublishAfterTranscoded
deriving DecidableEq, Repr

/-- The collaborator a call went to (`os.Stat` is the call `GetFileSize` makes). -/
def Call.stage : Call → Stage
  | .ConvertToMp4 _ _ => .ConvertToMp4
  | .GenShortClip _ _ => .GenShortClip
  | .VideoToMultiBitrates _ _ => .VideoToMultiBitrates
  | .GenMasterPlaylist _ => .GenMasterPlaylist
  | .GetVideoDuration _ => .GetVideoDuration
  | .Stat _ => .GetFileSize
  | .UploadDirAndRemove _ _ => .UploadDirAndRemove
  | .PublishAfterTranscoded _ => .PublishAfterTranscoded

/-- The collaborators of the worker over a world state `σ`. A Go `error` is a
message (`none`, `Except.ok`: nil). The worker calls the three derivative
generators and the uploader as statements, so whatever they report is
dropped; they are given the result type of their contract, success or an
error. The three URL builders are functions of their two arguments.
`Unmarshal body` is the value of the zero `FileInfo` after
`json.Unmarshal(body, &fileInfo)` together with the error it returned. -/
structure Env (σ : Type) where
  Unmarshal : String → FileInfo × Option String
  ConvertToMp4 : String → String → σ → String × σ
  GenShortClip : String → String → σ → Except String Unit × σ
  VideoToMultiBitrates : String → String → σ → Except String Unit × σ
  GenMasterPlaylist : String → σ → Except String Unit × σ
  GetVideoDuration : String → σ → String × σ
  Stat : String → σ → Except String Int × σ
  UploadDirAndRemove : String → String → σ → Except String Unit × σ
  GetStreamUrl : String → String → String
  GetTranscodedUrl : String → String → String
  GetPreviewUrl : String → String → String
  Marshal : TranscodeInfo → Except String String
  PublishAfterTranscoded : String → σ → σ

/-- The outside world and the calls made so far, oldest first. -/
structure State (σ : Type) where
  world : σ
  trace : List Call

/-- Append one call to the trace and move to the world the call left. -/
def State.record {σ : Type} (s : State σ) (c : Call) (w : σ) : State σ :=
  { world := w, trace := s.trace ++ [c] }

/-- Either the code went on with a value, or `log.Fatalf` ended the process. -/
inductive Outcome (α σ : Type) where
  | ok (a : α) (s : State σ)
  | exit (msg : String) (s : State σ)

/-- The state an outcome ends in. -/
def Outcome.state {α σ : Type} : Outcome α σ → State σ
  | .ok _ s => s
  | .exit _ s => s

/-- Whether the process is still running. -/
def Outcome.alive {α σ : Type} : Outcome α σ → Bool
  | .ok _ _ => true
  | .exit _ _ => false

/-! ## `strconv.FormatInt(_, 10)` -/

/-- The character of one decimal digit, `'0' + d`. -/
def digitChar (d : Nat) : Char := Char.ofNat (48 + d)

/-- The digit loop of `strconv`: peel the last decimal digit of `u` until one
digit is left. `fuel` bounds the number of digits; 20 are enough for any
unsigned 64-bit value. -/
def formatBits : Nat → Nat → List Char → List Char
  | 0, u, acc => digitChar (u % 10) :: acc
  | fuel + 1, u, acc =>
    if u < 10 then digitChar u :: acc
    else formatBits fuel (u / 10) (digitChar (u % 10) :: acc)

/-- The call `strconv.FormatInt(i, 10)` on an `int64`: the decimal digits of
the magnitude, after a minus sign when `i` is negative. -/
def FormatInt (i : Int) : String :=
  if i < 0 then String.mk ('-' :: formatBits 20 i.natAbs [])
  else String.mk (formatBits 20 i.natAbs [])

/-- Read a string of decimal digits from the left; `none` on any other character. -/
def parseDigits : List Char → Nat → Option Nat
  | [], acc => some acc
  | c :: cs, acc =>
    if 48 ≤ c.toNat ∧ c.toNat ≤ 57 then parseDigits cs (acc * 10 + (c.toNat - 48))
    else none

/-- Parse an unsigned decimal integer: one or more digits and nothing else. -/
def parseDecimal (s : String) : Option Nat :=
  match s.data with
  | [] => none
  | cs => parseDigits cs 0

/-! ## The worker -/

/-- `FailOnError`: a non-nil error is fatal to the process. -/
def FailOnError {σ : Type} (err : Option String) (msg : String) (s : State σ) :
    Outcome Unit σ :=
  match err with
  | some e => .exit (msg ++ ": " ++ e) s
  | none => .ok () s

/-- `GetFileSize`: stat the file; `("0", err)` when that fails, else the size in decimal. -/
def GetFileSize {σ : Type} (env : Env σ) (fileUrl : String) (s : State σ) :
    (String × Option String) × State σ :=
  let r := env.Stat fileUrl s.world
  let s1 := s.record (.Stat fileUrl) r.2
  match r.1 with
  | .error err => (("0", some err), s1)
  | .ok size => ((FormatInt size, none), s1)

/-- `getFileMeta`: duration first, then size; a failed size read is passed to `FailOnError`. -/
def getFileMeta {σ : Type} (env : Env σ) (savedFileUrl : String) (s : State σ) :
    Outcome FileMeta σ :=
  let d := env.GetVideoDuration savedFileUrl s.world
  let s1 := s.record (.GetVideoDuration savedFileUrl) d.2
  let r := GetFileSize env savedFileUrl s1
  let checked : Outcome Unit σ :=
    if r.1.2 ≠ none then FailOnError r.1.2 "Failed to get file size" r.2
    else .ok () r.2
  match checked with
  | .exit msg s2 => .exit msg s2
  | .ok _ s2 => .ok { size := r.1.1, duration := d.1 } s2

/-- `prepareFiles`: the three derivative generators, one after the other, results dropped. -/
def prepareFiles {σ : Type} (env : Env σ) (savedFileUrl fileName : String) (s : State σ) :
    State σ :=
  let s1 := s.record (.GenShortClip savedFileUrl fileName)
    (env.GenShortClip savedFileUrl fileName s.world).2
  let s2 := s1.record (.VideoToMultiBitrates savedFileUrl fileName)
    (env.VideoToMultiBitrates savedFileUrl fileName s1.world).2
  s2.record (.GenMasterPlaylist fileName) (env.GenMasterPlaylist fileName s2.world).2

/-- The record `sendFileInfoToQueue` assembles before serializing it (`info := &TranscodeInfo ...`). -/
def buildTranscodeInfo {σ : Type} (env : Env σ) (fileInfo : FileInfo) (fileMeta : FileMeta) :
    TranscodeInfo :=
  let streamUrl := env.GetStreamUrl fileInfo.UserId fileInfo.FileName
  let transcodedUrl := env.GetTranscodedUrl fileInfo.UserId fileInfo.FileName
  let previewUrl := env.GetPreviewUrl fileInfo.UserId fileInfo.FileName
  { UserId := fileInfo.UserId
    VideoUploadId := fileInfo.VideoUploadId
    TranscodedUrl := transcodedUrl
    DownloadSize := fileMeta.size
    StreamUrl := streamUrl
    PreviewUrl := previewUrl
    Duration := fileMeta.duration }

/-- `sendFileInfoToQueue`: assemble, serialize, publish; a serialization error
is printed and nothing is published. -/
def sendFileInfoToQueue {σ : Type} (env : Env σ) (fileInfo : FileInfo) (fileMeta : FileMeta)
    (s : State σ) : State σ :=
  match env.Marshal (buildTranscodeInfo env fileInfo fileMeta) with
  | .error _ => s
  | .ok infoJson =>
    s.record (.PublishAfterTranscoded infoJson) (env.PublishAfterTranscoded infoJson s.world)

/-- The body of `for d := range msgs` in `main`, for a delivery with body `body`. -/
def handleDelivery {σ : Type} (env : Env σ) (body : String) (s : State σ) : Outcome Unit σ :=
  let fileInfo := (env.Unmarshal body).1
  let c := env.ConvertToMp4 fileInfo.Url fileInfo.FileName s.world
  let savedFileUrl := c.1
  let s1 := s.record (.ConvertToMp4 fileInfo.Url fileInfo.FileName) c.2
  let s2 := prepareFiles env savedFileUrl fileInfo.FileName s1
  match getFileMeta env savedFileUrl s2 with
  | .exit msg s3 => .exit msg s3
  | .ok fileMeta s3 =>
    let s4 := s3.record (.UploadDirAndRemove fileInfo.UserId fileInfo.FileName)
      (env.UploadDirAndRemove fileInfo.UserId fileInfo.FileName s3.world).2
    .ok () (sendFileInfoToQueue env fileInfo fileMeta s4)

/-- The loop `for d := range msgs` over the deliveries of the queue, in order;
it stops where the process exits. -/
def consume {σ : Type} (env : Env σ) : List String → State σ → Outcome Unit σ
  | [], s => .ok () s
  | d :: ds, s =>
    match handleDelivery env d s with
    | .exit msg s1 => .exit msg s1
    | .ok _ s1 => consume env ds s1

/-! ## Observations on one delivery -/

/-- The job a delivery decodes to; the error of `json.Unmarshal` is not looked at. -/
def decoded {σ : Type} (env : Env σ) (body : String) : FileInfo := (env.Unmarshal body).1

/-- The path `ConvertToMp4` returns for a delivery handled from state `s`. -/
def savedFileUrlOf {σ : Type} (env : Env σ) (body : String) (s : State σ) : String :=
  (env.ConvertToMp4 (decoded env body).Url (decoded env body).FileName s.world).1

/-- The state in which `getFileMeta` is entered: after conversion and `prepareFiles`. -/
def stateBeforeMeta {σ : Type} (env : Env σ) (body : String) (s : State σ) : State σ :=
  prepareFiles env (savedFileUrlOf env body s) (decoded env body).FileName
    (s.record (.ConvertToMp4 (decoded env body).Url (decoded env body).FileName)
      (env.ConvertToMp4 (decoded env body).Url (decoded env body).FileName s.world).2)

/-- What `GetVideoDuration` returns while the delivery is handled. -/
def durationRead {σ : Type} (env : Env σ) (body : String) (s : State σ) : String :=
  (env.GetVideoDuration (savedFileUrlOf env body s) (stateBeforeMeta env body s).world).1

/-- What `os.Stat` returns while the delivery is handled. -/
def sizeRead {σ : Type} (env : Env σ) (body : String) (s : State σ) : Except String Int :=
  (env.Stat (savedFileUrlOf env body s)
    (env.GetVideoDuration (savedFileUrlOf env body s) (stateBeforeMeta env body s).world).2).1

/-- The calls made while the delivery is handled: what it adds to the trace. -/
def callsOf {σ : Type} (env : Env σ) (body : String) (s : State σ) : List Call :=
  (handleDelivery env body s).state.trace.drop s.trace.length

/-- The bodies handed to `PublishAfterTranscoded` in a trace. -/
def published : List Call → List String
  | [] => []
  | .PublishAfterTranscoded b :: cs => b :: published cs
  | _ :: cs => published cs

/-- The six calls every delivery makes, up to the size read. -/
def callsUntilStat (job : FileInfo) (savedFileUrl : String) : List Call :=
  [.ConvertToMp4 job.Url job.FileName,
   .GenShortClip savedFileUrl job.FileName,
   .VideoToMultiBitrates savedFileUrl job.FileName,
   .GenMasterPlaylist job.FileName,
   .GetVideoDuration savedFileUrl,
   .Stat savedFileUrl]

/-- The calls after the size read: none when it failed, else the upload and,
when the record serializes, its publication. -/
def callsAfterStat {σ : Type} (env : Env σ) (job : FileInfo) (duration : String) :
    Except String Int → List Call
  | .error _ => []
  | .ok n =>
    .UploadDirAndRemove job.UserId job.FileName ::
      match env.Marshal (buildTranscodeInfo env job { size := FormatInt n, duration := duration }) with
      | .error _ => []
      | .ok infoJson => [.PublishAfterTranscoded infoJson]

/-! ## A concrete environment -/

/-- The zero value of `FileInfo`. -/
def zeroFileInfo : FileInfo := { UserId := "", VideoUploadId := "", Url := "", FileName := "" }

/-- The body of the end-to-end scenario. -/
def bodyClip42 : String :=
  "\x7b\"UserId\":\"u1\",\"VideoUploadId\":\"v1\",\"Url\":\"/tmp/in.mov\",\"FileName\":\"clip42\"\x7d"

/-- The job of the end-to-end scenario. -/
def jobClip42 : FileInfo :=
  { UserId := "u1", VideoUploadId := "v1", Url := "/tmp/in.mov", FileName := "clip42" }

/-- A body for a job whose converted file cannot be stat-ed in `stubEnv`. -/
def bodyGone : String :=
  "\x7b\"UserId\":\"u2\",\"VideoUploadId\":\"v2\",\"Url\":\"/tmp/gone.mov\",\"FileName\":\"gone\"\x7d"

/-- The job `bodyGone` decodes to. -/
def jobGone : FileInfo :=
  { UserId := "u2", VideoUploadId := "v2", Url := "/tmp/gone.mov", FileName := "gone" }

/-- Field by field serialization of a record, good for strings that need no escaping. -/
def stubMarshal (t : TranscodeInfo) : String :=
  "\x7b\"user_id\":\"" ++ t.UserId ++ "\",\"video_upload_id\":\"" ++ t.VideoUploadId ++
  "\",\"transcoded_url\":\"" ++ t.TranscodedUrl ++ "\",\"download_size\":\"" ++ t.DownloadSize ++
  "\",\"stream_url\":\"" ++ t.StreamUrl ++ "\",\"preview_url\":\"" ++ t.PreviewUrl ++
  "\",\"duration\":\"" ++ t.Duration ++ "\"\x7d"

/-- A stub world without state: conversion writes `/tmp/<fileName>.mp4`, every
file has 1024 bytes except `/tmp/gone.mp4`, which does not exist, every video
lasts 12.5 seconds, every generator and the uploader succeed, and anything but
the two known bodies is not JSON. -/
def stubEnv : Env Unit where
  Unmarshal := fun body =>
    if body = bodyClip42 then (jobClip42, none)
    else if body = bodyGone then (jobGone, none)
    else (zeroFileInfo, some "invalid JSON: no value at offset 0")
  ConvertToMp4 := fun _ fileName w => ("/tmp/" ++ fileName ++ ".mp4", w)
  GenShortClip := fun _ _ w => (.ok (), w)
  VideoToMultiBitrates := fun _ _ w => (.ok (), w)
  GenMasterPlaylist := fun _ w => (.ok (), w)
  GetVideoDuration := fun _ w => ("12.5", w)
  Stat := fun fileUrl w =>
    if fileUrl = "/tmp/gone.mp4" then (.error "stat /tmp/gone.mp4: no such file or directory", w)
    else (.ok 1024, w)
  UploadDirAndRemove := fun _ _ w => (.ok (), w)
  GetStreamUrl := fun userId fileName => "s3://" ++ userId ++ "/" ++ fileName ++ "/master.m3u8"
  GetTranscodedUrl := fun userId fileName => "s3://" ++ userId ++ "/" ++ fileName ++ "/video.mp4"
  GetPreviewUrl := fun userId fileName => "s3://" ++ userId ++ "/" ++ fileName ++ "/short.mp4"
  Marshal := fun t => .ok (stubMarshal t)
  PublishAfterTranscoded := fun _ w => w

/-- The empty starting state of the stub world. -/
def stubStart : State Unit := { world := (), trace := [] }

/-- The stub world with a duration inspection that finds nothing. -/
def silentEnv : Env Unit :=
  { stubEnv with GetVideoDuration := fun _ w => ("", w) }

/-- The stub world with a short-clip generator that fails. -/
def failingGenEnv : Env Unit :=
  { stubEnv with GenShortClip := fun _ _ w => (.error "ffmpeg: exit status 1", w) }

/-- A delivery that is not JSON. -/
def bodyGarbage : String := "not json"

/-! ## Decimal formatting -/

theorem digitChar_toNat (d : Nat) (h : d < 10) : (digitChar d).toNat = 48 + d := by
  interval_cases d <;> rfl

theorem formatBits_append (fuel u : Nat) (acc : List Char) :
    formatBits fuel u acc = formatBits fuel u [] ++ acc := by
  induction fuel generalizing u acc with
  | zero => simp [formatBits]
  | succ f ih =>
    unfold formatBits
    by_cases h : u < 10
    · simp [h]
    · simp only [h, if_false]
      rw [ih (u / 10) (digitChar (u % 10) :: acc), ih (u / 10) [digitChar (u % 10)]]
      simp

theorem parseDigits_append (xs ys : List Char) (a : Nat) :
    parseDigits (xs ++ ys) a = (parseDigits xs a).bind (parseDigits ys) := by
  induction xs generalizing a with
  | nil => simp [parseDigits]
  | cons c cs ih =>
    simp only [List.cons_append, parseDigits]
    split
    · exact ih _
    · rfl

theorem parseDigits_digit (a d : Nat) (h : d < 10) :
    parseDigits [digitChar d] a = some (a * 10 + d) := by
  simp [parseDigits, digitChar_toNat d h]
  omega

theorem parseDigits_formatBits (fuel u : Nat) (h : u < 10 ^ (fuel + 1)) :
    parseDigits (formatBits fuel u []) 0 = some u := by
  induction fuel generalizing u with
  | zero =>
    have hu : u < 10 := by simpa using h
    simp [formatBits, Nat.mod_eq_of_lt hu, parseDigits_digit 0 u hu]
  | succ f ih =>
    unfold formatBits
    by_cases hu : u < 10
    · simp [hu, parseDigits_digit 0 u hu]
    · simp only [hu, if_false]
      have hdiv : u / 10 < 10 ^ (f + 1) := by
        rw [Nat.div_lt_iff_lt_mul (by norm_num)]
        calc u < 10 ^ (f + 1 + 1) := h
          _ = 10 ^ (f + 1) * 10 := by ring
      rw [formatBits_append, parseDigits_append, ih (u / 10) hdiv]
      simp only [Option.bind]
      rw [parseDigits_digit (u / 10) (u % 10) (Nat.mod_lt _ (by norm_num))]
      congr 1
      omega

theorem formatBits_head (fuel u : Nat) (acc : List Char) (hpos : 0 < u)
    (h : u < 10 ^ (fuel + 1)) :
    ∃ d, 1 ≤ d ∧ d < 10 ∧ (formatBits fuel u acc).head? = some (digitChar d) := by
  induction fuel generalizing u acc with
  | zero =>
    have hu : u < 10 := by simpa using h
    exact ⟨u, hpos, hu, by simp [formatBits, Nat.mod_eq_of_lt hu]⟩
  | succ f ih =>
    unfold formatBits
    by_cases hu : u < 10
    · exact ⟨u, hpos, hu, by simp [hu]⟩
    · simp only [hu, if_false]
      have hdiv : u / 10 < 10 ^ (f + 1) := by
        rw [Nat.div_lt_iff_lt_mul (by norm_num)]
        calc u < 10 ^ (f + 1 + 1) := h
          _ = 10 ^ (f + 1) * 10 := by ring
      exact ih (u / 10) _ (by omega) hdiv

theorem parseDigits_all_digits (cs : List Char) (a v : Nat) (h : parseDigits cs a = some v) :
    ∀ c ∈ cs, 48 ≤ c.toNat ∧ c.toNat ≤ 57 := by
  induction cs generalizing a with
  | nil => simp
  | cons c cs ih =>
    simp only [parseDigits] at h
    split at h
    · rename_i hc
      intro x hx
      rcases List.mem_cons.mp hx with rfl | hx
      · exact hc
      · exact ih _ h x hx
    · cases h

theorem formatBits_ne_nil (fuel u : Nat) (acc : List Char) : formatBits fuel u acc ≠ [] := by
  rw [formatBits_append]
  cases fuel with
  | zero => simp [formatBits]
  | succ f =>
    unfold formatBits
    split
    · simp
    · rw [formatBits_append]; simp

theorem digitChar_ne_zero (d : Nat) (h1 : 1 ≤ d) (h2 : d < 10) : digitChar d ≠ '0' := by
  interval_cases d <;> decide

/-! ## The shape of one delivery -/

theorem handleDelivery_trace {σ : Type} (env : Env σ) (body : String) (s : State σ) :
    (handleDelivery env body s).state.trace =
      s.trace ++ (callsUntilStat (decoded env body) (savedFileUrlOf env body s) ++
        callsAfterStat env (decoded env body) (durationRead env body s) (sizeRead env body s)) := by
  unfold callsAfterStat
  cases hstat : sizeRead env body s with
  | error e =>
    simp only [sizeRead, stateBeforeMeta, savedFileUrlOf, decoded, prepareFiles, State.record] at hstat
    simp [handleDelivery, getFileMeta, GetFileSize, FailOnError, prepareFiles, State.record,
      Outcome.state, callsUntilStat, savedFileUrlOf, decoded, hstat]
  | ok n =>
    simp only [sizeRead, stateBeforeMeta, savedFileUrlOf, decoded, prepareFiles, State.record] at hstat
    cases hm : env.Marshal (buildTranscodeInfo env (decoded env body)
        { size := FormatInt n, duration := durationRead env body s }) with
    | error e =>
      simp only [durationRead, stateBeforeMeta, savedFileUrlOf, decoded, prepareFiles, State.record] at hm
      simp [handleDelivery, getFileMeta, GetFileSize, FailOnError, prepareFiles, State.record,
        Outcome.state, callsUntilStat, savedFileUrlOf, decoded, hstat, sendFileInfoToQueue, hm,
        durationRead, stateBeforeMeta]
    | ok b =>
      simp only [durationRead, stateBeforeMeta, savedFileUrlOf, decoded, prepareFiles, State.record] at hm
      simp [handleDelivery, getFileMeta, GetFileSize, FailOnError, prepareFiles, State.record,
        Outcome.state, callsUntilStat, savedFileUrlOf, decoded, hstat, sendFileInfoToQueue, hm,
        durationRead, stateBeforeMeta]

theorem callsOf_eq {σ : Type} (env : Env σ) (body : String) (s : State σ) :
    callsOf env body s = callsUntilStat (decoded env body) (savedFileUrlOf env body s) ++
      callsAfterStat env (decoded env body) (durationRead env body s) (sizeRead env body s) := by
  unfold callsOf
  rw [handleDelivery_trace]
  simp

theorem handleDelivery_alive {σ : Type} (env : Env σ) (body : String) (s : State σ) :
    (handleDelivery env body s).alive = (sizeRead env body s).toBool := by
  cases hstat : sizeRead env body s with
  | error e =>
    simp only [sizeRead, stateBeforeMeta, savedFileUrlOf, decoded, prepareFiles, State.record] at hstat
    simp [handleDelivery, getFileMeta, GetFileSize, FailOnError, Outcome.alive, hstat,
      Except.toBool, State.record, prepareFiles]
  | ok n =>
    simp only [sizeRead, stateBeforeMeta, savedFileUrlOf, decoded, prepareFiles, State.record] at hstat
    simp [handleDelivery, getFileMeta, GetFileSize, FailOnError, Outcome.alive, hstat,
      Except.toBool, State.record, prepareFiles]

theorem parseDecimal_mk (cs : List Char) (h : cs ≠ []) :
    parseDecimal (String.mk cs) = parseDigits cs 0 := by
  cases cs with
  | nil => exact absurd rfl h
  | cons c cs => rfl

theorem FormatInt_of_nonneg (n : Int) (h : 0 ≤ n) :
    FormatInt n = String.mk (formatBits 20 n.toNat []) := by
  have hlt : ¬ n < 0 := not_lt.mpr h
  have hab : n.natAbs = n.toNat := by omega
  simp [FormatInt, hlt, hab]

theorem FormatInt_ne_empty (n : Int) : FormatInt n ≠ "" := by
  unfold FormatInt
  split
  · intro h
    have := congrArg String.data h
    simp at this
  · intro h
    have := congrArg String.data h
    exact formatBits_ne_nil 20 n.natAbs [] this

theorem published_append (xs ys : List Call) :
    published (xs ++ ys) = published xs ++ published ys := by
  induction xs with
  | nil => rfl
  | cons c cs ih => cases c <;> simp [published, ih]

theorem published_callsOf {σ : Type} (env : Env σ) (body : String) (s : State σ) :
    published (callsOf env body s) =
      published (callsAfterStat env (decoded env body) (durationRead env body s)
        (sizeRead env body s)) := by
  rw [callsOf_eq, published_append]
  simp [callsUntilStat, published]

theorem consume_single {σ : Type} (env : Env σ) (b : String) (s : State σ) :
    consume env [b] s = handleDelivery env b s := by
  unfold consume
  cases handleDelivery env b s with
  | ok a s1 => simp [consume]
  | exit msg s1 => rfl

/-! ## The claims -/

/-- C3: when the stat of a path succeeds with a size `n` in the range of a
non-negative 64-bit integer, `GetFileSize` returns `(s, nil)` where `s` is
the decimal representation of `n`: parsing `s` as a decimal integer gives
`n` back, `s` holds decimal digits only (no sign, no padding), and `s` has
no leading zero unless it is `"0"` itself. -/
theorem GetFileSize_decimal {σ : Type} (env : Env σ) (fileUrl : String) (s : State σ) (n : Int)
    (hn : 0 ≤ n ∧ n < 2 ^ 63) (hstat : (env.Stat fileUrl s.world).1 = .ok n) :
    ∃ str : String, (GetFileSize env fileUrl s).1 = (str, none) ∧
      parseDecimal str = some n.toNat ∧
      (∀ c ∈ str.data, 48 ≤ c.toNat ∧ c.toNat ≤ 57) ∧
      (str = "0" ∨ str.data.head? ≠ some '0') := by
  have hbound : n.toNat < 10 ^ (20 + 1) := by
    have h1 : n.toNat < 2 ^ 63 := by
      have := hn.2
      omega
    exact lt_trans h1 (by norm_num)
  have hparse : parseDecimal (FormatInt n) = some n.toNat := by
    rw [FormatInt_of_nonneg n hn.1, parseDecimal_mk _ (formatBits_ne_nil _ _ _)]
    exact parseDigits_formatBits 20 n.toNat hbound
  refine ⟨FormatInt n, ?_, hparse, ?_, ?_⟩
  · simp [GetFileSize, hstat]
  · rw [FormatInt_of_nonneg n hn.1]
    apply parseDigits_all_digits _ 0 n.toNat
    exact parseDigits_formatBits 20 n.toNat hbound
  · rw [FormatInt_of_nonneg n hn.1]
    by_cases h0 : n.toNat = 0
    · left
      rw [h0]
      rfl
    · right
      obtain ⟨d, hd1, hd2, hhead⟩ :=
        formatBits_head 20 n.toNat [] (Nat.pos_of_ne_zero h0) hbound
      simp only [hhead]
      intro heq
      exact digitChar_ne_zero d hd1 hd2 (Option.some.inj heq)

/-- C3 at a 1024-byte file: the stub world reports 1024 bytes for
`/tmp/clip42.mp4` and `GetFileSize` returns `("1024", nil)`. -/
theorem GetFileSize_decimal_witness :
    (GetFileSize stubEnv "/tmp/clip42.mp4" stubStart).1 = ("1024", none) ∧
    ∃ str : String, (GetFileSize stubEnv "/tmp/clip42.mp4" stubStart).1 = (str, none) ∧
      parseDecimal str = some (1024 : Int).toNat ∧
      (∀ c ∈ str.data, 48 ≤ c.toNat ∧ c.toNat ≤ 57) ∧
      (str = "0" ∨ str.data.head? ≠ some '0') :=
  ⟨by decide, GetFileSize_decimal stubEnv "/tmp/clip42.mp4" stubStart 1024
    ⟨by decide, by decide⟩ rfl⟩

/-- C4: the record `sendFileInfoToQueue` serializes carries the job's `UserId`
and `VideoUploadId` and the metadata's size and duration unchanged, it is
the record handed to `json.Marshal` and, when that succeeds, the bytes handed
to `PublishAfterTranscoded`; for the job u1/v1/`/tmp/in.mov`/clip42 with size
"1024" and duration "12.5" the four fields are "u1", "v1", "1024", "12.5". -/
theorem sendFileInfoToQueue_carries_fields :
    (∀ (σ : Type) (env : Env σ) (fileInfo : FileInfo) (fileMeta : FileMeta) (s : State σ),
      (buildTranscodeInfo env fileInfo fileMeta).UserId = fileInfo.UserId ∧
      (buildTranscodeInfo env fileInfo fileMeta).VideoUploadId = fileInfo.VideoUploadId ∧
      (buildTranscodeInfo env fileInfo fileMeta).DownloadSize = fileMeta.size ∧
      (buildTranscodeInfo env fileInfo fileMeta).Duration = fileMeta.duration ∧
      (∀ infoJson, env.Marshal (buildTranscodeInfo env fileInfo fileMeta) = .ok infoJson →
        (sendFileInfoToQueue env fileInfo fileMeta s).trace =
          s.trace ++ [Call.PublishAfterTranscoded infoJson])) ∧
    (∀ (σ : Type) (env : Env σ),
      (buildTranscodeInfo env jobClip42 { size := "1024", duration := "12.5" }).UserId = "u1" ∧
      (buildTranscodeInfo env jobClip42 { size := "1024", duration := "12.5" }).VideoUploadId
        = "v1" ∧
      (buildTranscodeInfo env jobClip42 { size := "1024", duration := "12.5" }).DownloadSize
        = "1024" ∧
      (buildTranscodeInfo env jobClip42 { size := "1024", duration := "12.5" }).Duration
        = "12.5") := by
  refine ⟨?_, ?_⟩
  · intro σ env fileInfo fileMeta s
    refine ⟨rfl, rfl, rfl, rfl, ?_⟩
    intro infoJson h
    simp [sendFileInfoToQueue, h, State.record]
  · intro σ env
    exact ⟨rfl, rfl, rfl, rfl⟩

/-- C5: two assembled records whose jobs agree on `UserId` and `FileName` have
the same `TranscodedUrl`, `StreamUrl` and `PreviewUrl`, whatever the jobs'
`Url` and `VideoUploadId` and whatever the two `FileMeta` values are. -/
theorem buildTranscodeInfo_urls_agree {σ : Type} (env : Env σ) (job1 job2 : FileInfo)
    (meta1 meta2 : FileMeta)
    (h : job1.UserId = job2.UserId ∧ job1.FileName = job2.FileName) :
    (buildTranscodeInfo env job1 meta1).TranscodedUrl
      = (buildTranscodeInfo env job2 meta2).TranscodedUrl ∧
    (buildTranscodeInfo env job1 meta1).StreamUrl
      = (buildTranscodeInfo env job2 meta2).StreamUrl ∧
    (buildTranscodeInfo env job1 meta1).PreviewUrl
      = (buildTranscodeInfo env job2 meta2).PreviewUrl := by
  simp [buildTranscodeInfo, h.1, h.2]

/-- C5 on two runs for user u1 and file clip42 that differ in `Url`,
`VideoUploadId`, size and duration. -/
theorem buildTranscodeInfo_urls_agree_witness :
    (buildTranscodeInfo stubEnv jobClip42 { size := "1024", duration := "12.5" }).TranscodedUrl
      = (buildTranscodeInfo stubEnv
          { UserId := "u1", VideoUploadId := "v9", Url := "/tmp/again.mov", FileName := "clip42" }
          { size := "2048", duration := "13.0" }).TranscodedUrl ∧
    (buildTranscodeInfo stubEnv jobClip42 { size := "1024", duration := "12.5" }).StreamUrl
      = (buildTranscodeInfo stubEnv
          { UserId := "u1", VideoUploadId := "v9", Url := "/tmp/again.mov", FileName := "clip42" }
          { size := "2048", duration := "13.0" }).StreamUrl ∧
    (buildTranscodeInfo stubEnv jobClip42 { size := "1024", duration := "12.5" }).PreviewUrl
      = (buildTranscodeInfo stubEnv
          { UserId := "u1", VideoUploadId := "v9", Url := "/tmp/again.mov", FileName := "clip42" }
          { size := "2048", duration := "13.0" }).PreviewUrl :=
  buildTranscodeInfo_urls_agree stubEnv jobClip42
    { UserId := "u1", VideoUploadId := "v9", Url := "/tmp/again.mov", FileName := "clip42" }
    { size := "1024", duration := "12.5" } { size := "2048", duration := "13.0" }
    ⟨rfl, rfl⟩

/-- C1 fails: in the stub world whose duration inspection returns the empty
string, the job u1/v1/`/tmp/in.mov`/clip42 has four non-empty fields and the
delivery publishes one record, whose `Duration` is empty. -/
theorem empty_duration_is_published :
    (jobClip42.UserId ≠ "" ∧ jobClip42.VideoUploadId ≠ "" ∧ jobClip42.Url ≠ "" ∧
      jobClip42.FileName ≠ "") ∧
    decoded silentEnv bodyClip42 = jobClip42 ∧
    durationRead silentEnv bodyClip42 stubStart = "" ∧
    silentEnv.Marshal
      { UserId := "u1", VideoUploadId := "v1", TranscodedUrl := "s3://u1/clip42/video.mp4",
        DownloadSize := "1024", StreamUrl := "s3://u1/clip42/master.m3u8",
        PreviewUrl := "s3://u1/clip42/short.mp4", Duration := "" } =
      .ok ("\x7b\"user_id\":\"u1\",\"video_upload_id\":\"v1\"," ++
        "\"transcoded_url\":\"s3://u1/clip42/video.mp4\",\"download_size\":\"1024\"," ++
        "\"stream_url\":\"s3://u1/clip42/master.m3u8\"," ++
        "\"preview_url\":\"s3://u1/clip42/short.mp4\",\"duration\":\"\"\x7d") ∧
    published (callsOf silentEnv bodyClip42 stubStart) =
      ["\x7b\"user_id\":\"u1\",\"video_upload_id\":\"v1\"," ++
        "\"transcoded_url\":\"s3://u1/clip42/video.mp4\",\"download_size\":\"1024\"," ++
        "\"stream_url\":\"s3://u1/clip42/master.m3u8\"," ++
        "\"preview_url\":\"s3://u1/clip42/short.mp4\",\"duration\":\"\"\x7d"] := by
  refine ⟨⟨by decide, by decide, by decide, by decide⟩, rfl, rfl, rfl, rfl⟩

/-- C1, amended: for a job with non-empty `UserId`, `VideoUploadId`, `Url` and
`FileName`, a delivery publishes nothing or exactly one record; in that
record `UserId`, `VideoUploadId` and `DownloadSize` are non-empty (the job's
two fields and the decimal size), while `TranscodedUrl`, `StreamUrl`,
`PreviewUrl` and `Duration` are exactly what the URL builders and the
duration inspection returned, empty or not. -/
theorem handleDelivery_publishes_assembled_or_nothing {σ : Type} (env : Env σ) (body : String)
    (s : State σ)
    (hvalid : (decoded env body).UserId ≠ "" ∧ (decoded env body).VideoUploadId ≠ "" ∧
      (decoded env body).Url ≠ "" ∧ (decoded env body).FileName ≠ "") :
    published (callsOf env body s) = [] ∨
    ∃ (info : TranscodeInfo) (infoJson : String),
      env.Marshal info = .ok infoJson ∧
      published (callsOf env body s) = [infoJson] ∧
      info.UserId = (decoded env body).UserId ∧ info.UserId ≠ "" ∧
      info.VideoUploadId = (decoded env body).VideoUploadId ∧ info.VideoUploadId ≠ "" ∧
      (∃ n, sizeRead env body s = .ok n ∧ info.DownloadSize = FormatInt n) ∧
      info.DownloadSize ≠ "" ∧
      info.TranscodedUrl =
        env.GetTranscodedUrl (decoded env body).UserId (decoded env body).FileName ∧
      info.StreamUrl = env.GetStreamUrl (decoded env body).UserId (decoded env body).FileName ∧
      info.PreviewUrl = env.GetPreviewUrl (decoded env body).UserId (decoded env body).FileName ∧
      info.Duration = durationRead env body s := by
  rw [published_callsOf]
  cases hstat : sizeRead env body s with
  | error e => left; simp [callsAfterStat, published]
  | ok n =>
    cases hm : env.Marshal (buildTranscodeInfo env (decoded env body)
        { size := FormatInt n, duration := durationRead env body s }) with
    | error e => left; simp [callsAfterStat, published, hm]
    | ok b =>
      right
      refine ⟨_, b, hm, ?_, rfl, hvalid.1, rfl, hvalid.2.1, ⟨n, rfl, rfl⟩, ?_, rfl, rfl, rfl, rfl⟩
      · simp [callsAfterStat, published, hm]
      · exact FormatInt_ne_empty n

/-- C1, amended, on the end-to-end scenario in the stub world. -/
theorem handleDelivery_publishes_assembled_or_nothing_witness :
    published (callsOf stubEnv bodyClip42 stubStart) = [] ∨
    ∃ (info : TranscodeInfo) (infoJson : String),
      stubEnv.Marshal info = .ok infoJson ∧
      published (callsOf stubEnv bodyClip42 stubStart) = [infoJson] ∧
      info.UserId = (decoded stubEnv bodyClip42).UserId ∧ info.UserId ≠ "" ∧
      info.VideoUploadId = (decoded stubEnv bodyClip42).VideoUploadId ∧
      info.VideoUploadId ≠ "" ∧
      (∃ n, sizeRead stubEnv bodyClip42 stubStart = .ok n ∧ info.DownloadSize = FormatInt n) ∧
      info.DownloadSize ≠ "" ∧
      info.TranscodedUrl = stubEnv.GetTranscodedUrl (decoded stubEnv bodyClip42).UserId
        (decoded stubEnv bodyClip42).FileName ∧
      info.StreamUrl = stubEnv.GetStreamUrl (decoded stubEnv bodyClip42).UserId
        (decoded stubEnv bodyClip42).FileName ∧
      info.PreviewUrl = stubEnv.GetPreviewUrl (decoded stubEnv bodyClip42).UserId
        (decoded stubEnv bodyClip42).FileName ∧
      info.Duration = durationRead stubEnv bodyClip42 stubStart :=
  handleDelivery_publishes_assembled_or_nothing stubEnv bodyClip42 stubStart
    ⟨by decide, by decide, by decide, by decide⟩

/-- C2: when the size read and the serialization of a delivery succeed, the
calls it makes are, in this order and once each: `ConvertToMp4`,
`GenShortClip`, `VideoToMultiBitrates`, `GenMasterPlaylist`,
`GetVideoDuration`, `GetFileSize` (its `os.Stat`), `UploadDirAndRemove`,
`PublishAfterTranscoded`. -/
theorem handleDelivery_stage_order {σ : Type} (env : Env σ) (body : String) (s : State σ)
    (n : Int) (infoJson : String)
    (hsize : sizeRead env body s = .ok n)
    (hjson : env.Marshal (buildTranscodeInfo env (decoded env body)
      { size := FormatInt n, duration := durationRead env body s }) = .ok infoJson) :
    (callsOf env body s).map Call.stage =
      [.ConvertToMp4, .GenShortClip, .VideoToMultiBitrates, .GenMasterPlaylist,
       .GetVideoDuration, .GetFileSize, .UploadDirAndRemove, .PublishAfterTranscoded] := by
  rw [callsOf_eq, hsize]
  simp [callsUntilStat, callsAfterStat, hjson, Call.stage]

/-- C2 on the end-to-end scenario in the stub world. -/
theorem handleDelivery_stage_order_witness :
    (callsOf stubEnv bodyClip42 stubStart).map Call.stage =
      [.ConvertToMp4, .GenShortClip, .VideoToMultiBitrates, .GenMasterPlaylist,
       .GetVideoDuration, .GetFileSize, .UploadDirAndRemove, .PublishAfterTranscoded] :=
  handleDelivery_stage_order stubEnv bodyClip42 stubStart 1024
    (stubMarshal (buildTranscodeInfo stubEnv jobClip42 { size := "1024", duration := "12.5" }))
    rfl rfl

/-- C6 fails: in the stub world the converted file of the first job does not
exist, its size read fails, the process exits, and the second job is never
touched: the trace ends with the failed stat and nothing is published. -/
theorem size_failure_ends_worker :
    sizeRead stubEnv bodyGone stubStart =
      .error "stat /tmp/gone.mp4: no such file or directory" ∧
    (consume stubEnv [bodyGone, bodyClip42] stubStart).alive = false ∧
    (consume stubEnv [bodyGone, bodyClip42] stubStart).state.trace =
      [.ConvertToMp4 "/tmp/gone.mov" "gone",
       .GenShortClip "/tmp/gone.mp4" "gone",
       .VideoToMultiBitrates "/tmp/gone.mp4" "gone",
       .GenMasterPlaylist "gone",
       .GetVideoDuration "/tmp/gone.mp4",
       .Stat "/tmp/gone.mp4"] ∧
    published (consume stubEnv [bodyGone, bodyClip42] stubStart).state.trace = [] := by
  refine ⟨rfl, rfl, rfl, rfl⟩

/-- C6, amended: the worker survives a delivery exactly when its size read
succeeds. For two deliveries A, B: what the generators, the uploader or the
serialization report for A never ends the process, and B is then handled
next; a failed size read for A ends the process, and no call is made for B. -/
theorem consume_pair_survival {σ : Type} (env : Env σ) (a b : String) (s : State σ) :
    (handleDelivery env a s).alive = (sizeRead env a s).toBool ∧
    (consume env [a, b] s).alive =
      ((sizeRead env a s).toBool && (sizeRead env b (handleDelivery env a s).state).toBool) ∧
    (consume env [a, b] s).state.trace =
      s.trace ++ callsOf env a s ++
        (if (sizeRead env a s).toBool then callsOf env b (handleDelivery env a s).state
         else []) := by
  refine ⟨handleDelivery_alive env a s, ?_, ?_⟩
  · have ha := handleDelivery_alive env a s
    have hb := handleDelivery_alive env b (handleDelivery env a s).state
    unfold consume
    cases h : handleDelivery env a s with
    | ok u s1 =>
      rw [h] at ha hb
      simp only [Outcome.alive] at ha
      simp only [Outcome.state] at hb
      simp only [consume_single, ← ha, hb, Outcome.state, Bool.true_and]
    | exit msg s1 =>
      rw [h] at ha
      simp only [Outcome.alive] at ha
      simp [Outcome.alive, ← ha]
  · have ha := handleDelivery_alive env a s
    have hta := handleDelivery_trace env a s
    have htb := handleDelivery_trace env b (handleDelivery env a s).state
    rw [← callsOf_eq] at hta htb
    unfold consume
    cases h : handleDelivery env a s with
    | ok u s1 =>
      rw [h] at ha hta htb
      simp only [Outcome.alive, Outcome.state] at ha hta htb
      simp only [consume_single, ← ha, Outcome.state, if_true, htb, hta]
    | exit msg s1 =>
      rw [h] at ha hta
      simp only [Outcome.alive, Outcome.state] at ha hta
      simp [Outcome.state, ← ha, hta]

/-- C7 fails: in the stub world the body `not json` does not decode, the job
is left with four empty fields, and every stage still runs on it, up to a
published record. -/
theorem undecodable_body_runs_all_stages :
    (stubEnv.Unmarshal bodyGarbage).2 ≠ none ∧
    decoded stubEnv bodyGarbage =
      { UserId := "", VideoUploadId := "", Url := "", FileName := "" } ∧
    callsOf stubEnv bodyGarbage stubStart =
      [.ConvertToMp4 "" "",
       .GenShortClip "/tmp/.mp4" "",
       .VideoToMultiBitrates "/tmp/.mp4" "",
       .GenMasterPlaylist "",
       .GetVideoDuration "/tmp/.mp4",
       .Stat "/tmp/.mp4",
       .UploadDirAndRemove "" "",
       .PublishAfterTranscoded ("\x7b\"user_id\":\"\",\"video_upload_id\":\"\"," ++
         "\"transcoded_url\":\"s3:////video.mp4\",\"download_size\":\"1024\"," ++
         "\"stream_url\":\"s3:////master.m3u8\",\"preview_url\":\"s3:////short.mp4\"," ++
         "\"duration\":\"12.5\"\x7d")] := by
  refine ⟨by decide, rfl, rfl⟩

/-- C7, amended: no delivery is rejected. For every body, also one that is
not valid JSON or that decodes to a job with an empty `UserId`,
`VideoUploadId`, `Url` or `FileName`, the decode error is dropped and the
delivery starts like any other: `ConvertToMp4` is called with whatever `Url`
and `FileName` the decoding left, then the three generators, the duration
inspection and the size read are called; the upload follows when the size
read succeeds. -/
theorem handleDelivery_never_rejects {σ : Type} (env : Env σ) (body : String) (s : State σ) :
    (callsOf env body s).take 6 =
      [.ConvertToMp4 (env.Unmarshal body).1.Url (env.Unmarshal body).1.FileName,
       .GenShortClip (savedFileUrlOf env body s) (env.Unmarshal body).1.FileName,
       .VideoToMultiBitrates (savedFileUrlOf env body s) (env.Unmarshal body).1.FileName,
       .GenMasterPlaylist (env.Unmarshal body).1.FileName,
       .GetVideoDuration (savedFileUrlOf env body s),
       .Stat (savedFileUrlOf env body s)] ∧
    ((sizeRead env body s).toBool = true →
      Call.UploadDirAndRemove (env.Unmarshal body).1.UserId (env.Unmarshal body).1.FileName
        ∈ callsOf env body s) := by
  rw [callsOf_eq]
  refine ⟨by simp [callsUntilStat, decoded], ?_⟩
  cases hn : sizeRead env body s with
  | error e => simp [Except.toBool]
  | ok n => simp [callsAfterStat, decoded]

/-- C8 fails: in the stub world whose short-clip generator fails, the job
clip42 is still uploaded and its record is still published. -/
theorem failed_generator_still_publishes :
    (failingGenEnv.GenShortClip "/tmp/clip42.mp4" "clip42" ()).1 =
      .error "ffmpeg: exit status 1" ∧
    callsOf failingGenEnv bodyClip42 stubStart =
      [.ConvertToMp4 "/tmp/in.mov" "clip42",
       .GenShortClip "/tmp/clip42.mp4" "clip42",
       .VideoToMultiBitrates "/tmp/clip42.mp4" "clip42",
       .GenMasterPlaylist "clip42",
       .GetVideoDuration "/tmp/clip42.mp4",
       .Stat "/tmp/clip42.mp4",
       .UploadDirAndRemove "u1" "clip42",
       .PublishAfterTranscoded ("\x7b\"user_id\":\"u1\",\"video_upload_id\":\"v1\"," ++
         "\"transcoded_url\":\"s3://u1/clip42/video.mp4\",\"download_size\":\"1024\"," ++
         "\"stream_url\":\"s3://u1/clip42/master.m3u8\"," ++
         "\"preview_url\":\"s3://u1/clip42/short.mp4\",\"duration\":\"12.5\"\x7d")] := by
  refine ⟨rfl, rfl⟩

/-- C8, amended: whatever the three derivative generators report, all three
are invoked and the job goes on; when the size read and the serialization
succeed, `UploadDirAndRemove` and `PublishAfterTranscoded` are invoked. -/
theorem generators_do_not_gate_upload {σ : Type} (env : Env σ) (body : String) (s : State σ)
    (n : Int) (infoJson : String)
    (hsize : sizeRead env body s = .ok n)
    (hjson : env.Marshal (buildTranscodeInfo env (decoded env body)
      { size := FormatInt n, duration := durationRead env body s }) = .ok infoJson) :
    Call.GenShortClip (savedFileUrlOf env body s) (decoded env body).FileName
      ∈ callsOf env body s ∧
    Call.VideoToMultiBitrates (savedFileUrlOf env body s) (decoded env body).FileName
      ∈ callsOf env body s ∧
    Call.GenMasterPlaylist (decoded env body).FileName ∈ callsOf env body s ∧
    Call.UploadDirAndRemove (decoded env body).UserId (decoded env body).FileName
      ∈ callsOf env body s ∧
    Call.PublishAfterTranscoded infoJson ∈ callsOf env body s := by
  rw [callsOf_eq, hsize]
  simp [callsUntilStat, callsAfterStat, hjson]

/-- C8, amended, in the stub world whose short-clip generator fails. -/
theorem generators_do_not_gate_upload_witness :
    (failingGenEnv.GenShortClip "/tmp/clip42.mp4" "clip42" ()).1 =
      .error "ffmpeg: exit status 1" ∧
    Call.GenShortClip (savedFileUrlOf failingGenEnv bodyClip42 stubStart)
      (decoded failingGenEnv bodyClip42).FileName ∈ callsOf failingGenEnv bodyClip42 stubStart ∧
    Call.VideoToMultiBitrates (savedFileUrlOf failingGenEnv bodyClip42 stubStart)
      (decoded failingGenEnv bodyClip42).FileName ∈ callsOf failingGenEnv bodyClip42 stubStart ∧
    Call.GenMasterPlaylist (decoded failingGenEnv bodyClip42).FileName
      ∈ callsOf failingGenEnv bodyClip42 stubStart ∧
    Call.UploadDirAndRemove (decoded failingGenEnv bodyClip42).UserId
      (decoded failingGenEnv bodyClip42).FileName ∈ callsOf failingGenEnv bodyClip42 stubStart ∧
    Call.PublishAfterTranscoded
      (stubMarshal (buildTranscodeInfo failingGenEnv jobClip42
        { size := "1024", duration := "12.5" }))
      ∈ callsOf failingGenEnv bodyClip42 stubStart :=
  ⟨rfl, generators_do_not_gate_upload failingGenEnv bodyClip42 stubStart 1024
    (stubMarshal (buildTranscodeInfo failingGenEnv jobClip42
      { size := "1024", duration := "12.5" })) rfl rfl⟩

/-- C9: when reading the size of the converted file fails, the rest of the
pipeline does not run for that job: the process exits, the calls of the
delivery stop at the failed stat, none of them is `UploadDirAndRemove` or
`PublishAfterTranscoded`, nothing is published, and the loop handles no
further delivery. -/
theorem size_failure_stops_pipeline {σ : Type} (env : Env σ) (body : String)
    (rest : List String) (s : State σ) (e : String)
    (hsize : sizeRead env body s = .error e) :
    (handleDelivery env body s).alive = false ∧
    callsOf env body s = callsUntilStat (decoded env body) (savedFileUrlOf env body s) ∧
    (∀ c ∈ callsOf env body s,
      c.stage ≠ .UploadDirAndRemove ∧ c.stage ≠ .PublishAfterTranscoded) ∧
    published (callsOf env body s) = [] ∧
    (consume env (body :: rest) s).state = (handleDelivery env body s).state := by
  have halive : (handleDelivery env body s).alive = false := by
    rw [handleDelivery_alive, hsize]; rfl
  have hcalls : callsOf env body s =
      callsUntilStat (decoded env body) (savedFileUrlOf env body s) := by
    rw [callsOf_eq, hsize]; simp [callsAfterStat]
  refine ⟨halive, hcalls, ?_, ?_, ?_⟩
  · intro c hc
    rw [hcalls] at hc
    simp only [callsUntilStat, List.mem_cons, List.mem_singleton, List.not_mem_nil,
      or_false] at hc
    rcases hc with rfl | rfl | rfl | rfl | rfl | rfl <;> simp [Call.stage]
  · rw [hcalls]; rfl
  · unfold consume
    cases h : handleDelivery env body s with
    | ok u s1 => rw [h] at halive; simp [Outcome.alive] at halive
    | exit msg s1 => rfl

/-- C9 on the job whose converted file is missing in the stub world, followed
by a second delivery. -/
theorem size_failure_stops_pipeline_witness :
    (handleDelivery stubEnv bodyGone stubStart).alive = false ∧
    callsOf stubEnv bodyGone stubStart =
      callsUntilStat (decoded stubEnv bodyGone) (savedFileUrlOf stubEnv bodyGone stubStart) ∧
    (∀ c ∈ callsOf stubEnv bodyGone stubStart,
      c.stage ≠ .UploadDirAndRemove ∧ c.stage ≠ .PublishAfterTranscoded) ∧
    published (callsOf stubEnv bodyGone stubStart) = [] ∧
    (consume stubEnv (bodyGone :: [bodyClip42]) stubStart).state =
      (handleDelivery stubEnv bodyGone stubStart).state :=
  size_failure_stops_pipeline stubEnv bodyGone [bodyClip42] stubStart
    "stat /tmp/gone.mp4: no such file or directory" rfl

/-- C10: in every delivery, `GenShortClip`, `VideoToMultiBitrates`,
`GetVideoDuration` and the stat of `GetFileSize` receive exactly the path
that `ConvertToMp4 (job.Url, job.FileName)` returned for this job, the three
generators receive `job.FileName`, and the only calls after the size read
are `UploadDirAndRemove (job.UserId, job.FileName)`, made whenever the size
read succeeds, and the publication. -/
theorem stages_receive_own_job {σ : Type} (env : Env σ) (body : String) (s : State σ) :
    ∃ (job : FileInfo) (saved : String) (rest : List Call),
      job = (env.Unmarshal body).1 ∧
      saved = (env.ConvertToMp4 job.Url job.FileName s.world).1 ∧
      callsOf env body s =
        [.ConvertToMp4 job.Url job.FileName,
         .GenShortClip saved job.FileName,
         .VideoToMultiBitrates saved job.FileName,
         .GenMasterPlaylist job.FileName,
         .GetVideoDuration saved,
         .Stat saved] ++ rest ∧
      (∀ c ∈ rest, c = .UploadDirAndRemove job.UserId job.FileName ∨
        c.stage = .PublishAfterTranscoded) ∧
      ((sizeRead env body s).toBool = true →
        rest.head? = some (.UploadDirAndRemove job.UserId job.FileName)) := by
  refine ⟨(env.Unmarshal body).1, _, callsAfterStat env (decoded env body)
    (durationRead env body s) (sizeRead env body s), rfl, rfl, ?_, ?_, ?_⟩
  · rw [callsOf_eq]; rfl
  · intro c hc
    cases hn : sizeRead env body s with
    | error e => rw [hn] at hc; simp [callsAfterStat] at hc
    | ok n =>
      rw [hn] at hc
      simp only [callsAfterStat, List.mem_cons] at hc
      rcases hc with rfl | hc
      · left; rfl
      · right
        split at hc
        · simp at hc
        · simp only [List.mem_singleton] at hc
          rw [hc]; rfl
  · cases hn : sizeRead env body s with
    | error e => simp [Except.toBool]
    | ok n => intro _; simp [callsAfterStat, decoded]

end Sharelo
